import Mathlib

/-!
Verification of the PDF signing core of the PDF_Project repository.

The embedded code comes from:
* the `ApplicationSection` component (signature box history state,
  `updateSignatureBox`, `handleSignPdf`, the `hasSignedOnce` flag);
* the `PDFPreview` component (`clamp`, `handlePageClick`,
  `handleSignaturePointerDown` / `Move` / `Up`, per-page overlay wiring);
* the `SignatureUpload` component (image format validation).

Coordinates are modelled with exact rationals; the source works with
JavaScript numbers, and every constant appearing in the claims
(0.375, 0.44, 0.25, 0.12, 0.05, 0.03, 0.1, 0.8, ...) is exactly
representable, so the rational model matches the source arithmetic on
all inputs considered here.
-/

/-- A normalized signature box, fractions of the page size, top-left origin.
Mirrors the `SignatureBox` interface of `PDFPreview`. -/
structure SignatureBox where
  x : ℚ
  y : ℚ
  width : ℚ
  height : ℚ
deriving DecidableEq, Repr

/-- The `clamp` helper of `PDFPreview`: first the lower bound is checked,
then the upper bound, otherwise the value is returned unchanged. -/
def clamp (value mn mx : ℚ) : ℚ :=
  if value < mn then mn
  else if value > mx then mx
  else value

/-- Minimum normalized width used by the resize branch of
`handleSignaturePointerMove`. -/
def minWidth : ℚ := 5 / 100

/-- Minimum normalized height used by the resize branch of
`handleSignaturePointerMove`. -/
def minHeight : ℚ := 3 / 100

/-- Drag mode of the signature overlay, as in the `dragStateRef` of
`PDFPreview`. -/
inductive DragMode
  | move
  | resize
deriving DecidableEq, Repr

/-- The box produced by one `handleSignaturePointerMove` step of
`PDFPreview`, given the drag mode, the box captured at pointer-down and the
normalized pointer delta.  The move branch clamps `x` into `[0, 1 - width]`
and `y` into `[0, 1 - height]`; the resize branch clamps `width` into
`[minWidth, 1 - x]` and `height` into `[minHeight, 1 - y]`. -/
def pointerMoveBox (mode : DragMode) (startBox : SignatureBox)
    (deltaX deltaY : ℚ) : SignatureBox :=
  match mode with
  | .move =>
      { startBox with
        x := clamp (startBox.x + deltaX) 0 (1 - startBox.width)
        y := clamp (startBox.y + deltaY) 0 (1 - startBox.height) }
  | .resize =>
      { startBox with
        width := clamp (startBox.width + deltaX) minWidth (1 - startBox.x)
        height := clamp (startBox.height + deltaY) minHeight (1 - startBox.y) }

/-- The four bounds inequalities of the clamp invariant. -/
def boxInBounds (b : SignatureBox) : Prop :=
  0 ≤ b.x ∧ 0 ≤ b.y ∧ b.x + b.width ≤ 1 ∧ b.y + b.height ≤ 1

instance (b : SignatureBox) : Decidable (boxInBounds b) := by
  unfold boxInBounds; infer_instance

/-- A fully valid normalized box: in bounds and at least the minimum size.
These are the invariants a committed box satisfies when a drag starts. -/
def validBox (b : SignatureBox) : Prop :=
  boxInBounds b ∧ minWidth ≤ b.width ∧ minHeight ≤ b.height

instance (b : SignatureBox) : Decidable (validBox b) := by
  unfold validBox; infer_instance

/-- Geometry of one document page in points, from `page.getSize()`. -/
structure PageGeometry where
  width : ℚ
  height : ℚ
deriving DecidableEq, Repr

/-- A rectangle passed to `page.drawImage` in document page space. -/
structure DrawRect where
  x : ℚ
  y : ℚ
  width : ℚ
  height : ℚ
deriving DecidableEq, Repr

/-- The per-page rectangle computed inside the page loop of
`handleSignPdf`: direct scaling of x, width and height, and the origin
flip `drawY = pageHeight - topY - drawHeight` for y. -/
def pageDrawRect (box : SignatureBox) (page : PageGeometry) : DrawRect :=
  let drawWidth := box.width * page.width
  let drawHeight := box.height * page.height
  let topY := box.y * page.height
  let leftX := box.x * page.width
  { x := leftX
    y := page.height - topY - drawHeight
    width := drawWidth
    height := drawHeight }

/-- Claim C1: for every valid normalized box and every page, the stamp is
drawn at `x = box.x * pageWidth`, `width = box.width * pageWidth`,
`height = box.height * pageHeight` and
`y = pageHeight - box.y * pageHeight - box.height * pageHeight`, and the
drawn rectangle divided by the page dimensions reproduces the same
normalized quantities on every page, whatever its size. -/
theorem pageDrawRect_geometry_invariance (box : SignatureBox)
    (p q : PageGeometry)
    (hpw : p.width ≠ 0) (hph : p.height ≠ 0)
    (hqw : q.width ≠ 0) (hqh : q.height ≠ 0) :
    (pageDrawRect box p).x = box.x * p.width ∧
    (pageDrawRect box p).width = box.width * p.width ∧
    (pageDrawRect box p).height = box.height * p.height ∧
    (pageDrawRect box p).y
      = p.height - box.y * p.height - box.height * p.height ∧
    (pageDrawRect box p).x / p.width = (pageDrawRect box q).x / q.width ∧
    (pageDrawRect box p).y / p.height = (pageDrawRect box q).y / q.height ∧
    (pageDrawRect box p).width / p.width
      = (pageDrawRect box q).width / q.width ∧
    (pageDrawRect box p).height / p.height
      = (pageDrawRect box q).height / q.height := by
  refine ⟨rfl, rfl, rfl, rfl, ?_, ?_, ?_, ?_⟩
  all_goals simp only [pageDrawRect]
  all_goals field_simp
  all_goals ring

/-- The default box created by `handleSignatureUpload`:
`x = (1 - 0.25) / 2 = 0.375`, `y = (1 - 0.12) / 2 = 0.44`,
`width = 0.25`, `height = 0.12`. -/
def defaultBox : SignatureBox :=
  { x := 3 / 8, y := 11 / 25, width := 1 / 4, height := 3 / 25 }

/-- Witness for C1 at the default box and the two page sizes of the spec
scenarios, 595 x 842 pt and 420 x 595 pt. -/
theorem pageDrawRect_geometry_invariance_witness :
    (595 : ℚ) ≠ 0 ∧
    (pageDrawRect defaultBox ⟨595, 842⟩).x / 595
      = (pageDrawRect defaultBox ⟨420, 595⟩).x / 420 :=
  ⟨by norm_num,
   (pageDrawRect_geometry_invariance defaultBox ⟨595, 842⟩ ⟨420, 595⟩
      (by norm_num) (by norm_num) (by norm_num) (by norm_num)).2.2.2.2.1⟩

/-- Claim C4: starting from a valid box, one pointer-move step (any mode,
any delta) lands inside the unit square, and a resize delta that would
cross the right edge is clamped to `width = 1 - x`. -/
theorem pointerMoveBox_clamp_invariant (mode : DragMode)
    (startBox : SignatureBox) (deltaX deltaY : ℚ)
    (hv : validBox startBox) :
    boxInBounds (pointerMoveBox mode startBox deltaX deltaY) ∧
    (mode = .resize → 1 - startBox.x < startBox.width + deltaX →
      (pointerMoveBox mode startBox deltaX deltaY).width
        = 1 - startBox.x) := by
  obtain ⟨⟨hx, hy, hxw, hyh⟩, hw, hh⟩ := hv
  have hmw : (0 : ℚ) < minWidth := by norm_num [minWidth]
  have hmh : (0 : ℚ) < minHeight := by norm_num [minHeight]
  cases mode with
  | move =>
      refine ⟨⟨?_, ?_, ?_, ?_⟩, by simp⟩ <;>
        simp only [pointerMoveBox, clamp] <;> split_ifs <;> linarith
  | resize =>
      constructor
      · refine ⟨hx, hy, ?_, ?_⟩ <;>
          simp only [pointerMoveBox, clamp] <;> split_ifs <;> linarith
      · intro _ hgrow
        simp only [pointerMoveBox, clamp]
        have h1 : ¬ startBox.width + deltaX < minWidth := by
          push_neg
          linarith
        rw [if_neg h1, if_pos hgrow]

/-- Witness for C4: scenario D of the spec, box
`{x = 0.8, y = 0.8, width = 0.1, height = 0.1}` with a resize delta of 0.4
(which would grow the width to 0.5) stays in bounds and is clamped to
`width = 1 - 0.8 = 0.2`. -/
theorem pointerMoveBox_clamp_invariant_witness :
    validBox ⟨4/5, 4/5, 1/10, 1/10⟩ ∧
    boxInBounds (pointerMoveBox .resize ⟨4/5, 4/5, 1/10, 1/10⟩ (2/5) 0) ∧
    (pointerMoveBox .resize ⟨4/5, 4/5, 1/10, 1/10⟩ (2/5) 0).width
      = 1 - 4/5 := by
  have hv : validBox ⟨4/5, 4/5, 1/10, 1/10⟩ := by
    norm_num [validBox, boxInBounds, minWidth, minHeight]
  have h := pointerMoveBox_clamp_invariant .resize ⟨4/5, 4/5, 1/10, 1/10⟩
    (2/5) 0 hv
  exact ⟨hv, h.1, h.2 rfl (by norm_num)⟩

/-! ## Signature box history (ApplicationSection) -/

/-- The `signatureBoxState` of `ApplicationSection`: an array of committed
box snapshots plus a current index, `-1` when empty. -/
structure SignatureBoxState where
  history : List SignatureBox
  index : Int
deriving DecidableEq, Repr

/-- The `updateSignatureBox` callback of `ApplicationSection`.  A `none`
box clears the state.  With `pushHistory` the history is truncated at the
index and the new box appended, the index moving to the new tail.  Without
`pushHistory` (the ephemeral per-move path) the entry at the current index
is overwritten in place, after a defensive branch that seeds a fresh
history when it is empty or the index is negative.  In every reachable
state the index is below the history length, so the JS array write
`updated[prev.index] = normalizedBox` is `List.set`. -/
def updateSignatureBox (prev : SignatureBoxState)
    (box : Option SignatureBox) (pushHistory : Bool) : SignatureBoxState :=
  match box with
  | none => { history := [], index := -1 }
  | some normalizedBox =>
    if pushHistory then
      let truncated := prev.history.take (prev.index + 1).toNat
        ++ [normalizedBox]
      { history := truncated, index := (truncated.length : Int) - 1 }
    else if prev.history.length = 0 ∨ prev.index < 0 then
      { history := [normalizedBox], index := 0 }
    else
      { history := prev.history.set prev.index.toNat normalizedBox
        index := prev.index }

/-- The `currentSignatureBox` memo of `ApplicationSection`: `none` when the
index is negative, otherwise the entry at the index (or `none` when out of
range, matching the `|| null` fallback). -/
def currentSignatureBox (s : SignatureBoxState) : Option SignatureBox :=
  if s.index < 0 then none else s.history.get? s.index.toNat

/-- Modelled from the spec: the repository removed its undo handler (the
`ApplicationSection` comment `Removed Add/Undo/Redo handlers per flow
restructure`), so the index move is taken from spec section 4.3: `undo()`
moves the History index back one and is a no-op at index 0. -/
def undo (s : SignatureBoxState) : SignatureBoxState :=
  if 0 < s.index then { s with index := s.index - 1 } else s

/-- Modelled from the spec: the repository removed its redo handler, so the
index move is taken from spec section 4.3: `redo()` moves the History index
forward one and is a no-op at the tail. -/
def redo (s : SignatureBoxState) : SignatureBoxState :=
  if s.index < (s.history.length : Int) - 1 then
    { s with index := s.index + 1 }
  else s

theorem undo_history (s : SignatureBoxState) : (undo s).history = s.history := by
  unfold undo; split <;> rfl

theorem undo_iterate_history (s : SignatureBoxState) (k : Nat) :
    (undo^[k] s).history = s.history := by
  induction k generalizing s with
  | zero => rfl
  | succ n ih => rw [Function.iterate_succ_apply, ih, undo_history]

theorem redo_of_at_tail (s : SignatureBoxState)
    (h : s.index = (s.history.length : Int) - 1) : redo s = s := by
  unfold redo
  rw [if_neg (by omega)]

/-- Claim C5: from a state whose index sits at the tail, `k` undos followed
by a commit leave exactly the first `index + 1` surviving snapshots plus
the new one, the index at the new tail, and every later `redo` a no-op:
the discarded snapshots are unrecoverable. -/
theorem commit_after_undo_truncates (s : SignatureBoxState)
    (b : SignatureBox) (k : Nat)
    (_hlen : 1 ≤ s.history.length)
    (_htail : s.index = (s.history.length : Int) - 1) :
    (updateSignatureBox (undo^[k] s) (some b) true).history
      = s.history.take ((undo^[k] s).index + 1).toNat ++ [b] ∧
    (updateSignatureBox (undo^[k] s) (some b) true).index
      = ((updateSignatureBox (undo^[k] s) (some b) true).history.length : Int)
          - 1 ∧
    ∀ m : Nat, redo^[m] (updateSignatureBox (undo^[k] s) (some b) true)
      = updateSignatureBox (undo^[k] s) (some b) true := by
  refine ⟨?_, rfl, ?_⟩
  · unfold updateSignatureBox
    simp [undo_iterate_history]
  · intro m
    induction m with
    | zero => rfl
    | succ n ih =>
        rw [Function.iterate_succ_apply, redo_of_at_tail, ih]
        rfl

/-- Witness for C5: history of three snapshots at the tail, two undos, then
a commit of a fourth box. -/
theorem commit_after_undo_truncates_witness :
    1 ≤ ([⟨0,0,1,1⟩, ⟨0,0,1,0⟩, ⟨0,0,0,1⟩] : List SignatureBox).length ∧
    (updateSignatureBox
        (undo^[2] ⟨[⟨0,0,1,1⟩, ⟨0,0,1,0⟩, ⟨0,0,0,1⟩], 2⟩)
        (some ⟨0,0,0,0⟩) true).history
      = ([⟨0,0,1,1⟩, ⟨0,0,1,0⟩, ⟨0,0,0,1⟩] : List SignatureBox).take
          ((undo^[2]
            (⟨[⟨0,0,1,1⟩, ⟨0,0,1,0⟩, ⟨0,0,0,1⟩], 2⟩ : SignatureBoxState)).index
              + 1).toNat
        ++ [⟨0,0,0,0⟩] := by
  have h := commit_after_undo_truncates
    ⟨[⟨0,0,1,1⟩, ⟨0,0,1,0⟩, ⟨0,0,0,1⟩], 2⟩ ⟨0,0,0,0⟩ 2
    (by simp) (by simp)
  exact ⟨by simp, h.1⟩

/-! ## Drag state machine (PDFPreview with the ApplicationSection callback) -/

/-- The `dragStateRef` payload of `PDFPreview` between a captured
pointer-down and its pointer-up. -/
structure DragState where
  mode : DragMode
  pointerId : Nat
  startX : ℚ
  startY : ℚ
  startBox : SignatureBox
deriving DecidableEq, Repr

/-- Combined interactive state: the committed history (held by
`ApplicationSection`), the ephemeral drag state (held by `PDFPreview`) and
the error messages emitted through `showError`. -/
structure PreviewState where
  boxState : SignatureBoxState
  dragState : Option DragState
  errors : List String
deriving DecidableEq, Repr

/-- The message shown by `handlePageClick` for a click away from the first
page. -/
def firstPageOnlyError : String :=
  "Hey! Signature positioning should be done only on the first page."

/-- Default box width used by `handlePageClick` and
`handleSignatureUpload`. -/
def defaultWidth : ℚ := 1 / 4

/-- Default box height used by `handlePageClick` and
`handleSignatureUpload`. -/
def defaultHeight : ℚ := 3 / 25

/-- The `handlePageClick` handler of `PDFPreview` (callbacks wired as in
`ApplicationSection`): a click on a page other than the first only emits an
error message; a first-page click in placement mode creates a default-sized
box centered at the click point, clamped into bounds, and commits it. -/
def handlePageClick (placementMode : Bool) (s : PreviewState)
    (pageIndex : Nat) (clickX clickY : ℚ) : PreviewState :=
  if pageIndex ≠ 0 then
    { s with errors := s.errors ++ [firstPageOnlyError] }
  else if placementMode then
    let boxX := clamp (clickX - defaultWidth / 2) 0 (1 - defaultWidth)
    let boxY := clamp (clickY - defaultHeight / 2) 0 (1 - defaultHeight)
    let box : SignatureBox :=
      { x := boxX, y := boxY, width := defaultWidth, height := defaultHeight }
    { s with boxState := updateSignatureBox s.boxState (some box) true }
  else s

/-- The `handleSignaturePointerDown` handler of `PDFPreview`: a no-op
unless placement mode is on and a current box exists; otherwise it records
the drag mode, pointer id, start coordinates and start box. -/
def handleSignaturePointerDown (placementMode : Bool) (s : PreviewState)
    (mode : DragMode) (pointerId : Nat) (clientX clientY : ℚ) :
    PreviewState :=
  match placementMode, currentSignatureBox s.boxState with
  | true, some b =>
      { s with dragState := some ⟨mode, pointerId, clientX, clientY, b⟩ }
  | _, _ => s

/-- The `handleSignaturePointerMove` handler of `PDFPreview`: with an
active drag it divides the client delta by the rendered page size and
writes the clamped box through the ephemeral (no-push) path of
`updateSignatureBox`. -/
def handleSignaturePointerMove (s : PreviewState)
    (clientX clientY rectWidth rectHeight : ℚ) : PreviewState :=
  match s.dragState with
  | none => s
  | some d =>
      let deltaX := (clientX - d.startX) / rectWidth
      let deltaY := (clientY - d.startY) / rectHeight
      let moved := pointerMoveBox d.mode d.startBox deltaX deltaY
      { s with boxState := updateSignatureBox s.boxState (some moved) false }

/-- The `handleSignaturePointerUp` handler of `PDFPreview`: with an active
drag and a current box it pushes that box onto the history and clears the
drag state; otherwise it only clears the drag state. -/
def handleSignaturePointerUp (s : PreviewState) : PreviewState :=
  match s.dragState, currentSignatureBox s.boxState with
  | some _, some b =>
      { s with
        boxState := updateSignatureBox s.boxState (some b) true
        dragState := none }
  | _, _ => { s with dragState := none }

/-- A pointer or click event on the preview, tagged with the index of the
page it happens on. -/
inductive PageEvent
  | click (pageIndex : Nat) (x y : ℚ)
  | pointerDown (pageIndex : Nat) (mode : DragMode) (pointerId : Nat)
      (x y : ℚ)
  | pointerMove (pageIndex : Nat) (x y rectWidth rectHeight : ℚ)
  | pointerUp (pageIndex : Nat)
deriving DecidableEq, Repr

/-- The page an event happens on. -/
def pageIndexOf : PageEvent → Nat
  | .click i _ _ => i
  | .pointerDown i _ _ _ _ => i
  | .pointerMove i _ _ _ _ => i
  | .pointerUp i => i

/-- Event dispatch as wired in the `PDFPreview` markup: the click handler
is attached to every page container (and guards on the index itself), while
the pointer handlers are attached only to the first page overlay
(`isFirstPage ? handler : undefined`), so pointer events on any other page
reach no handler at all. -/
def dispatchPageEvent (placementMode : Bool) (s : PreviewState) :
    PageEvent → PreviewState
  | .click i x y => handlePageClick placementMode s i x y
  | .pointerDown i mode pid x y =>
      if i = 0 then handleSignaturePointerDown placementMode s mode pid x y
      else s
  | .pointerMove i x y rectW rectH =>
      if i = 0 then handleSignaturePointerMove s x y rectW rectH else s
  | .pointerUp i => if i = 0 then handleSignaturePointerUp s else s

/-- Claim C10: a click on a page other than the first only appends an error
message, and any sequence of events that touches only pages other than the
first leaves the signature box state and the drag state unchanged. -/
theorem first_page_only_editing (placementMode : Bool) (s : PreviewState)
    (i : Nat) (x y : ℚ) (es : List PageEvent)
    (hi : i ≠ 0)
    (hes : ∀ e ∈ es, pageIndexOf e ≠ 0) :
    handlePageClick placementMode s i x y
      = { s with errors := s.errors ++ [firstPageOnlyError] } ∧
    (es.foldl (dispatchPageEvent placementMode) s).boxState = s.boxState ∧
    (es.foldl (dispatchPageEvent placementMode) s).dragState
      = s.dragState := by
  refine ⟨by rw [handlePageClick, if_pos hi], ?_⟩
  induction es generalizing s with
  | nil => exact ⟨rfl, rfl⟩
  | cons e rest ih =>
      have he : pageIndexOf e ≠ 0 := hes e (by simp)
      have hrest : ∀ e ∈ rest, pageIndexOf e ≠ 0 := by
        intro e hmem
        exact hes e (by simp [hmem])
      have hstep : dispatchPageEvent placementMode s e
          = { s with errors := (dispatchPageEvent placementMode s e).errors }
          := by
        cases e with
        | click j cx cy =>
            have hj : j ≠ 0 := he
            simp only [dispatchPageEvent, handlePageClick, if_pos hj]
        | pointerDown j mode pid cx cy =>
            have hj : j ≠ 0 := he
            simp only [dispatchPageEvent, if_neg hj]
        | pointerMove j cx cy rw1 rh1 =>
            have hj : j ≠ 0 := he
            simp only [dispatchPageEvent, if_neg hj]
        | pointerUp j =>
            have hj : j ≠ 0 := he
            simp only [dispatchPageEvent, if_neg hj]
      have := ih (dispatchPageEvent placementMode s e) hrest
      rw [List.foldl_cons]
      refine ⟨?_, ?_⟩
      · rw [this.1, hstep]
      · rw [this.2, hstep]

/-- Witness for C10: a click and a full drag gesture on the second page
(index 1) leave a one-snapshot box state untouched. -/
theorem first_page_only_editing_witness :
    (1 : Nat) ≠ 0 ∧
    (([PageEvent.click 1 (1/2) (1/2),
       PageEvent.pointerDown 1 .move 7 0 0,
       PageEvent.pointerMove 1 (1/10) (1/10) 1 1,
       PageEvent.pointerUp 1].foldl
        (dispatchPageEvent true)
        ⟨⟨[defaultBox], 0⟩, none, []⟩).boxState
      = (⟨⟨[defaultBox], 0⟩, none, []⟩ : PreviewState).boxState) := by
  refine ⟨by norm_num, ?_⟩
  have h := first_page_only_editing true ⟨⟨[defaultBox], 0⟩, none, []⟩
    1 (1/2) (1/2)
    [PageEvent.click 1 (1/2) (1/2),
     PageEvent.pointerDown 1 .move 7 0 0,
     PageEvent.pointerMove 1 (1/10) (1/10) 1 1,
     PageEvent.pointerUp 1]
    (by norm_num)
    (by intro e hmem; fin_cases hmem <;> simp [pageIndexOf])
  exact h.2.1

/-! ## Ephemeral drag writes and the drag-commit scenario -/

/-- Evaluation of the ephemeral (no-push) path of `updateSignatureBox` when
the index is in range: the snapshot at the index is overwritten. -/
theorem updateSignatureBox_ephemeral (prev : SignatureBoxState)
    (m : SignatureBox) (h0 : 0 ≤ prev.index)
    (h1 : prev.index.toNat < prev.history.length) :
    updateSignatureBox prev (some m) false
      = ⟨prev.history.set prev.index.toNat m, prev.index⟩ := by
  have hcond : ¬ (prev.history.length = 0 ∨ prev.index < 0) := by
    push_neg
    omega
  simp only [updateSignatureBox, Bool.false_eq_true, if_false, if_neg hcond]

/-- Evaluation of the push path of `updateSignatureBox`: truncate at the
index, append, move the index to the new tail. -/
theorem updateSignatureBox_push (prev : SignatureBoxState)
    (m : SignatureBox) :
    updateSignatureBox prev (some m) true
      = ⟨prev.history.take (prev.index + 1).toNat ++ [m],
         ((prev.history.take (prev.index + 1).toNat ++ [m]).length : Int)
           - 1⟩ := rfl

/-- The box committed by the completed move drag of spec scenario C. -/
def movedBox : SignatureBox :=
  { x := 19 / 40, y := 39 / 100, width := 1 / 4, height := 3 / 25 }

/-- Counterexample to claim C6 as stated: one ephemeral pointer-move write
(the `pushHistory = false` path invoked by `handleSignaturePointerMove`)
changes the committed History sequence, overwriting the snapshot at the
current index instead of leaving every snapshot untouched. -/
theorem ephemeral_move_rewrites_history :
    (updateSignatureBox ⟨[defaultBox], 0⟩ (some movedBox) false).history
      ≠ (⟨[defaultBox], 0⟩ : SignatureBoxState).history := by
  rw [updateSignatureBox_ephemeral _ _ (by norm_num) (by simp)]
  simp only [List.set]
  intro h
  have hboxes : movedBox = defaultBox := by
    simpa using h
  have hx := congrArg SignatureBox.x hboxes
  norm_num [movedBox, defaultBox] at hx

/-- Claim C6 as amended: an intermediate pointer-move update never pushes
(history length and index are unchanged) but does overwrite the snapshot at
the current index with the ephemeral box; pointer-up pushes exactly one
snapshot, the current (final) box, after truncating at the index. -/
theorem drag_ephemeral_then_single_commit (s : PreviewState) (d : DragState)
    (b : SignatureBox) (clientX clientY rectWidth rectHeight : ℚ)
    (hd : s.dragState = some d)
    (h0 : 0 ≤ s.boxState.index)
    (h1 : s.boxState.index.toNat < s.boxState.history.length)
    (hb : currentSignatureBox s.boxState = some b) :
    (handleSignaturePointerMove s clientX clientY rectWidth
        rectHeight).boxState.history.length = s.boxState.history.length ∧
    (handleSignaturePointerMove s clientX clientY rectWidth
        rectHeight).boxState.index = s.boxState.index ∧
    (handleSignaturePointerMove s clientX clientY rectWidth
        rectHeight).boxState.history
      = s.boxState.history.set s.boxState.index.toNat
          (pointerMoveBox d.mode d.startBox
            ((clientX - d.startX) / rectWidth)
            ((clientY - d.startY) / rectHeight)) ∧
    (handleSignaturePointerUp s).boxState.history
      = s.boxState.history.take (s.boxState.index + 1).toNat ++ [b] := by
  refine ⟨?_, ?_, ?_, ?_⟩
  · simp [handleSignaturePointerMove, hd,
      updateSignatureBox_ephemeral _ _ h0 h1]
  · simp [handleSignaturePointerMove, hd,
      updateSignatureBox_ephemeral _ _ h0 h1]
  · simp [handleSignaturePointerMove, hd,
      updateSignatureBox_ephemeral _ _ h0 h1]
  · simp [handleSignaturePointerUp, hd, hb, updateSignatureBox_push]

/-- Witness for the amended C6: a move drag in progress on the
single-snapshot default state. -/
theorem drag_ephemeral_then_single_commit_witness :
    ((⟨⟨[defaultBox], 0⟩, some ⟨.move, 1, 0, 0, defaultBox⟩, []⟩ :
        PreviewState).dragState
      = some ⟨.move, 1, 0, 0, defaultBox⟩) ∧
    (handleSignaturePointerMove
        ⟨⟨[defaultBox], 0⟩, some ⟨.move, 1, 0, 0, defaultBox⟩, []⟩
        (1/10) (-(1/20)) 1 1).boxState.history.length
      = (⟨[defaultBox], 0⟩ : SignatureBoxState).history.length := by
  refine ⟨rfl, ?_⟩
  have h := drag_ephemeral_then_single_commit
    ⟨⟨[defaultBox], 0⟩, some ⟨.move, 1, 0, 0, defaultBox⟩, []⟩
    ⟨.move, 1, 0, 0, defaultBox⟩ defaultBox (1/10) (-(1/20)) 1 1
    rfl (by norm_num) (by simp) (by simp [currentSignatureBox])
  exact h.1

/-- Box state right after `handleSignatureUpload`: the default box is the
single committed snapshot. -/
def uploadBoxState : SignatureBoxState := ⟨[defaultBox], 0⟩

/-- Preview state at the start of scenario C: default box committed, no
drag in progress. -/
def scenarioCStart : PreviewState := ⟨uploadBoxState, none, []⟩

/-- The event sequence of spec scenario C: a move drag on the first page
whose client delta, divided by a unit rendered page size, is the
normalized delta `(0.1, -0.05)`. -/
def scenarioCEvents : List PageEvent :=
  [.pointerDown 0 .move 1 0 0,
   .pointerMove 0 (1/10) (-(1/20)) 1 1,
   .pointerUp 0]

/-- Claim C7: from the default box `{0.375, 0.44, 0.25, 0.12}`, a completed
move drag with normalized delta `(0.1, -0.05)` commits the box
`{0.475, 0.39, 0.25, 0.12}` and leaves the History with length 2. -/
theorem scenarioC_drag_commit :
    currentSignatureBox
        ((scenarioCEvents.foldl (dispatchPageEvent true)
          scenarioCStart).boxState)
      = some movedBox ∧
    ((scenarioCEvents.foldl (dispatchPageEvent true)
        scenarioCStart).boxState).history.length = 2 := by
  have hmove : pointerMoveBox .move defaultBox ((10 : ℚ))⁻¹ (-((20 : ℚ))⁻¹)
      = movedBox := by
    simp only [pointerMoveBox, clamp, defaultBox, movedBox]
    norm_num
  have hstep1 : dispatchPageEvent true scenarioCStart
      (.pointerDown 0 .move 1 0 0)
      = ⟨uploadBoxState, some ⟨.move, 1, 0, 0, defaultBox⟩, []⟩ := by
    simp [dispatchPageEvent, handleSignaturePointerDown, scenarioCStart,
      currentSignatureBox, uploadBoxState]
  have hstep2 : dispatchPageEvent true
      ⟨uploadBoxState, some ⟨.move, 1, 0, 0, defaultBox⟩, []⟩
      (.pointerMove 0 (1/10) (-(1/20)) 1 1)
      = ⟨⟨[movedBox], 0⟩, some ⟨.move, 1, 0, 0, defaultBox⟩, []⟩ := by
    have he := updateSignatureBox_ephemeral ⟨[defaultBox], 0⟩ movedBox
      (by norm_num) (by simp)
    simp [dispatchPageEvent, handleSignaturePointerMove, uploadBoxState,
      hmove, he]
  have hstep3 : dispatchPageEvent true
      ⟨⟨[movedBox], 0⟩, some ⟨.move, 1, 0, 0, defaultBox⟩, []⟩
      (.pointerUp 0)
      = ⟨⟨[movedBox, movedBox], 1⟩, none, []⟩ := by
    simp [dispatchPageEvent, handleSignaturePointerUp, currentSignatureBox,
      updateSignatureBox_push]
  have hfold : scenarioCEvents.foldl (dispatchPageEvent true) scenarioCStart
      = ⟨⟨[movedBox, movedBox], 1⟩, none, []⟩ := by
    simp only [scenarioCEvents, List.foldl_cons, List.foldl_nil,
      hstep1, hstep2, hstep3]
  rw [hfold]
  constructor
  · simp [currentSignatureBox]
  · simp

/-! ## Stamping pipeline (handleSignPdf) -/

/-- The failure taxonomy of the spec, one kind per pipeline stage that can
throw inside the try block of `handleSignPdf`. -/
inductive SigningFailure
  | unreadableDocument
  | unsupportedImageFormat
  | emptyDocument
  | alreadyStamped
  | drawFailed
  | saveFailed
deriving DecidableEq, Repr

/-- The actual byte format of the uploaded signature image. -/
inductive ImageFormat
  | png
  | jpeg
  | other
deriving DecidableEq, Repr

/-- Whether the second character list starts with the first. -/
def startsWithChars : List Char → List Char → Bool
  | [], _ => true
  | _ :: _, [] => false
  | c :: cs, d :: ds => c == d && startsWithChars cs ds

/-- Whether the pattern occurs as a contiguous run of the character
list. -/
def charsContain (pat : List Char) : List Char → Bool
  | [] => startsWithChars pat []
  | d :: rest => startsWithChars pat (d :: rest) || charsContain pat rest

/-- The JavaScript substring test `s.includes(pat)` used by the
`isPng = uploadedSignature.type.includes(png)` check of
`handleSignPdf`. -/
def stringIncludes (s pat : String) : Bool :=
  charsContain pat.toList s.toList

/-- The external pdf-lib collaborator as seen by one `handleSignPdf` call:
whether `PDFDocument.load` succeeds and with which pages (each page carries
its geometry and whether `drawImage` on it succeeds), the actual signature
byte format, and whether `save` succeeds. -/
structure PdfLib where
  loadResult : Option (List (PageGeometry × Bool))
  sigFormat : ImageFormat
  saveOk : Bool
deriving DecidableEq, Repr

/-- The embed dispatch of `handleSignPdf`: `embedPng` when the MIME type
contains `png`, `embedJpg` otherwise.  pdf-lib embedPng succeeds exactly on
PNG bytes and embedJpg exactly on JPEG bytes, so the chosen embedding
succeeds exactly when the byte format matches the chosen branch. -/
def embedSignature (isPng : Bool) (fmt : ImageFormat) : Bool :=
  if isPng then fmt == .png else fmt == .jpeg

/-- The per-page draw loop of `handleSignPdf`: each page receives the image
at its own `pageDrawRect`; a draw failure aborts the whole try block. -/
def drawAllPages (box : SignatureBox) :
    List (PageGeometry × Bool) → Option (List DrawRect)
  | [] => some []
  | (geom, ok) :: rest =>
      if ok then
        match drawAllPages box rest with
        | some rects => some (pageDrawRect box geom :: rects)
        | none => none
      else none

/-- The try block of `handleSignPdf`: load the document, embed the
signature by MIME dispatch, draw on every page, save.  The first failing
stage aborts with its failure kind; only a complete run returns the drawn
output (the serialized bytes are represented by the list of per-page draw
rectangles). -/
def handleSignPdfStamp (lib : PdfLib) (mimeType : String)
    (box : SignatureBox) : Except SigningFailure (List DrawRect) :=
  match lib.loadResult with
  | none => .error .unreadableDocument
  | some pages =>
      if embedSignature (stringIncludes mimeType "png") lib.sigFormat then
        match drawAllPages box pages with
        | some rects =>
            if lib.saveOk then .ok rects else .error .saveFailed
        | none => .error .drawFailed
      else .error .unsupportedImageFormat

theorem drawAllPages_eq_some (box : SignatureBox)
    (pages : List (PageGeometry × Bool)) (rects : List DrawRect)
    (h : drawAllPages box pages = some rects) :
    (∀ pg ∈ pages, pg.2 = true) ∧
    rects = pages.map (fun pg => pageDrawRect box pg.1) := by
  induction pages generalizing rects with
  | nil =>
      simp only [drawAllPages, Option.some.injEq] at h
      simp [← h]
  | cons pg rest ih =>
      obtain ⟨geom, ok⟩ := pg
      by_cases hok : ok = true
      · subst hok
        simp only [drawAllPages, if_true] at h
        cases hrest : drawAllPages box rest with
        | none => rw [hrest] at h; exact absurd h (by simp)
        | some rrest =>
            rw [hrest] at h
            simp only [Option.some.injEq] at h
            obtain ⟨hall, hmap⟩ := ih rrest hrest
            refine ⟨?_, ?_⟩
            · intro q hq
              rcases List.mem_cons.mp hq with hq | hq
              · rw [hq]
              · exact hall q hq
            · simp [← h, hmap]
      · simp only [Bool.not_eq_true] at hok
        subst hok
        simp only [drawAllPages, Bool.false_eq_true, if_false] at h
        exact Option.noConfusion h

/-- Claim C3: whenever `handleSignPdf` hands the caller a non-error byte
buffer, the document loaded, the embed succeeded, every page received its
stamp and serialization succeeded; any stage failure yields only an error
and never a partially stamped artifact. -/
theorem stamp_atomicity (lib : PdfLib) (mimeType : String)
    (box : SignatureBox) (out : List DrawRect)
    (h : handleSignPdfStamp lib mimeType box = .ok out) :
    ∃ pages, lib.loadResult = some pages ∧
      embedSignature (stringIncludes mimeType "png") lib.sigFormat = true ∧
      (∀ pg ∈ pages, pg.2 = true) ∧
      lib.saveOk = true ∧
      out = pages.map (fun pg => pageDrawRect box pg.1) := by
  cases hload : lib.loadResult with
  | none =>
      simp only [handleSignPdfStamp, hload] at h
      exact Except.noConfusion h
  | some pages =>
      simp only [handleSignPdfStamp, hload] at h
      by_cases hembed :
          embedSignature (stringIncludes mimeType "png") lib.sigFormat = true
      · rw [if_pos hembed] at h
        cases hdraw : drawAllPages box pages with
        | none =>
            simp only [hdraw] at h
            exact Except.noConfusion h
        | some rects =>
            simp only [hdraw] at h
            by_cases hsave : lib.saveOk = true
            · rw [if_pos hsave] at h
              simp only [Except.ok.injEq] at h
              obtain ⟨hall, hmap⟩ := drawAllPages_eq_some box pages rects hdraw
              exact ⟨pages, rfl, hembed, hall, hsave, by rw [← h, hmap]⟩
            · rw [if_neg hsave] at h
              exact Except.noConfusion h
      · rw [if_neg hembed] at h
        exact Except.noConfusion h

/-- A concrete two-page library state on which the whole pipeline
succeeds. -/
def okLib : PdfLib :=
  { loadResult := some [(⟨595, 842⟩, true), (⟨420, 595⟩, true)]
    sigFormat := .png
    saveOk := true }

/-- Witness for C3: a successful run on `okLib` satisfies the atomicity
conclusion. -/
theorem stamp_atomicity_witness :
    ∃ pages, okLib.loadResult = some pages ∧
      embedSignature (stringIncludes "image/png" "png") okLib.sigFormat
        = true ∧
      (∀ pg ∈ pages, pg.2 = true) ∧
      okLib.saveOk = true ∧
      [pageDrawRect defaultBox ⟨595, 842⟩, pageDrawRect defaultBox ⟨420, 595⟩]
        = pages.map (fun pg => pageDrawRect defaultBox pg.1) := by
  apply stamp_atomicity okLib "image/png" defaultBox
  rfl

/-- Claim C8: when the signature bytes are neither PNG nor JPEG, a stamp
call on a loadable document fails at the embed stage, whatever the
declared MIME type, and the embed dispatch accepts exactly the two
formats PNG and JPEG. -/
theorem unsupported_format_rejected (lib : PdfLib) (mimeType : String)
    (box : SignatureBox) (pages : List (PageGeometry × Bool))
    (hfmt : lib.sigFormat = .other)
    (hload : lib.loadResult = some pages) :
    handleSignPdfStamp lib mimeType box
      = .error .unsupportedImageFormat ∧
    ∀ (isPng : Bool) (fmt : ImageFormat),
      embedSignature isPng fmt = true → fmt = .png ∨ fmt = .jpeg := by
  constructor
  · simp only [handleSignPdfStamp, hload]
    rw [if_neg]
    cases hpng : stringIncludes mimeType "png" <;>
      simp [embedSignature, hfmt, hpng]
  · intro isPng fmt hemb
    cases fmt with
    | png => exact Or.inl rfl
    | jpeg => exact Or.inr rfl
    | other =>
        cases isPng <;> simp [embedSignature] at hemb

/-- A library state holding a GIF signature (neither PNG nor JPEG) over a
one-page document. -/
def gifLib : PdfLib :=
  { loadResult := some [(⟨595, 842⟩, true)]
    sigFormat := .other
    saveOk := true }

/-- Witness for C8: the GIF signature is rejected at the embed stage. -/
theorem unsupported_format_rejected_witness :
    gifLib.sigFormat = .other ∧
    handleSignPdfStamp gifLib "image/gif" defaultBox
      = .error .unsupportedImageFormat :=
  ⟨rfl,
   (unsupported_format_rejected gifLib "image/gif" defaultBox
      [(⟨595, 842⟩, true)] rfl rfl).1⟩

/-- A library state for a well-formed document with zero pages and a PNG
signature. -/
def emptyDocLib : PdfLib :=
  { loadResult := some [], sigFormat := .png, saveOk := true }

/-- Counterexample to claim C9 as stated: on a document that parses to
zero pages, `handleSignPdf` does not fail with `EmptyDocument` (or with
anything else); the page loop runs zero times and the call succeeds,
returning a serialized document with no stamp applied. -/
theorem empty_document_not_rejected :
    handleSignPdfStamp emptyDocLib "image/png" defaultBox = .ok [] ∧
    handleSignPdfStamp emptyDocLib "image/png" defaultBox
      ≠ .error .emptyDocument :=
  ⟨rfl, by intro h; exact Except.noConfusion h⟩

/-- Claim C9 as amended: when the document parses to zero pages (and the
embed and save stages succeed), the stamp operation succeeds and returns a
document with no stamp applied; the code contains no zero-page check and
no `EmptyDocument` error path. -/
theorem empty_document_stamps_nothing (lib : PdfLib) (mimeType : String)
    (box : SignatureBox)
    (hload : lib.loadResult = some [])
    (hembed : embedSignature (stringIncludes mimeType "png") lib.sigFormat
      = true)
    (hsave : lib.saveOk = true) :
    handleSignPdfStamp lib mimeType box = .ok [] := by
  simp only [handleSignPdfStamp, hload, if_pos hembed, drawAllPages,
    if_pos hsave]

/-- Witness for the amended C9 on the concrete zero-page library state. -/
theorem empty_document_stamps_nothing_witness :
    emptyDocLib.loadResult = some [] ∧
    handleSignPdfStamp emptyDocLib "image/png" defaultBox = .ok [] :=
  ⟨rfl,
   empty_document_stamps_nothing emptyDocLib "image/png" defaultBox
     rfl rfl rfl⟩

/-! ## Signing session (ApplicationSection around handleSignPdf) -/

/-- The `currentStep` values of `ApplicationSection`. -/
inductive Step
  | upload
  | signature
  | preview
  | signing
  | complete
deriving DecidableEq, Repr

/-- The session state that `handleSignPdf` reads and writes: the
`hasSignedOnce` flag, the produced output (`signedBlob`), the current step
and the surfaced error. -/
structure SessionState where
  hasSignedOnce : Bool
  signedOutput : Option (List DrawRect)
  currentStep : Step
  errorMsg : Option SigningFailure
deriving DecidableEq, Repr

/-- One `handleSignPdf` invocation as a state transition.  The guard
returns immediately when `hasSignedOnce` is true.  On a successful stamp
the code stores the output and moves to `complete` - it never sets
`hasSignedOnce` to true (no `setHasSignedOnce(true)` exists anywhere in
the component).  On a failure the code surfaces the error and returns to
the `preview` step. -/
def handleSignPdfSession (s : SessionState) (lib : PdfLib)
    (mimeType : String) (box : SignatureBox) : SessionState :=
  if s.hasSignedOnce then s
  else
    match handleSignPdfStamp lib mimeType box with
    | .ok out =>
        { s with
          signedOutput := some out
          currentStep := .complete
          errorMsg := none }
    | .error e =>
        { s with
          currentStep := .preview
          errorMsg := some e }

/-- The session as it sits on the preview step before the first stamp. -/
def freshSession : SessionState :=
  { hasSignedOnce := false, signedOutput := none
    currentStep := .preview, errorMsg := none }

/-- Claim C2 is a code bug: the first stamp on `okLib` succeeds and moves
to `complete`, yet `hasSignedOnce` is still false afterwards (the flag is
declared, guarded on and reset, but never set to true), so a second stamp
request is not rejected - it runs the whole pipeline again and replaces
the previously produced output. -/
theorem at_most_once_never_engaged :
    (handleSignPdfSession freshSession okLib "image/png"
        defaultBox).currentStep = Step.complete ∧
    (handleSignPdfSession freshSession okLib "image/png"
        defaultBox).hasSignedOnce = false ∧
    (handleSignPdfSession
        (handleSignPdfSession freshSession okLib "image/png" defaultBox)
        emptyDocLib "image/png" defaultBox).signedOutput
      = some [] ∧
    (handleSignPdfSession freshSession okLib "image/png"
        defaultBox).signedOutput ≠ some [] := by
  have hrun : handleSignPdfStamp okLib "image/png" defaultBox
      = .ok [pageDrawRect defaultBox ⟨595, 842⟩,
             pageDrawRect defaultBox ⟨420, 595⟩] := rfl
  have hfirst : handleSignPdfSession freshSession okLib "image/png"
        defaultBox
      = { hasSignedOnce := false
          signedOutput := some [pageDrawRect defaultBox ⟨595, 842⟩,
                                pageDrawRect defaultBox ⟨420, 595⟩]
          currentStep := .complete
          errorMsg := none } := by
    simp only [handleSignPdfSession, freshSession, Bool.false_eq_true,
      if_false, hrun]
  have hsecondRun : handleSignPdfStamp emptyDocLib "image/png" defaultBox
      = .ok [] := rfl
  refine ⟨by rw [hfirst], by rw [hfirst], ?_, ?_⟩
  · rw [hfirst]
    simp only [handleSignPdfSession, Bool.false_eq_true, if_false,
      hsecondRun]
  · rw [hfirst]
    simp
